import Mathlib

/-!
Verification development for the OnePlus radio-firmware flashing web
application (Next.js API routes plus the fastboot transport library).

The embedding below translates the TypeScript source into Lean:

* `FastbootManager` (lib/fastboot.ts, embedded in the route bundle) becomes a
  family of pure functions.  The external process launcher `execAsync` is
  passed in as an oracle of type `String → Except String (String × String)`:
  `Except.ok (stdout, stderr)` models a resolving promise, `Except.error msg`
  a rejecting one.  Machine effects (spawning, timing) are abstracted this
  way; the decision logic is translated verbatim.
* The radio flash route (src/app/api/radio/flash/route.ts) streams progress
  events and appends one final event; the inner call to
  `radioFirmwareManager.flashRadioFirmware` (whose library file is not part
  of the source snapshot) is abstracted as an outcome
  `Except String Bool`: `.ok b` models the promise resolving with boolean
  `b`, `.error m` models a thrown error with message `m`.
* `waitForDevice` is modelled with an idealized clock: each poll of
  `getConnectedDevices` is instantaneous and the 1000 ms sleep between polls
  is the only thing that advances time, so poll `k` happens at elapsed time
  `1000 * k`.  The `while` loop is unrolled with a fuel argument chosen large
  enough that the loop condition always fails before the fuel runs out.
-/

/-! ## Fastboot transport: command construction and execution -/

/-- Result record returned by `FastbootManager.executeCommand`
(`FastbootCommandResult` in lib/fastboot.ts): `error = none` models the
`undefined` error field of the success branch. -/
structure FastbootCommandResult where
  success : Bool
  output : String
  error : Option String
  deriving DecidableEq, Repr

/-- The full command string built by `executeCommand`: with a device id the
code produces `fastboot -s ${deviceId} ${command}`, without one it produces
`fastboot ${command}` (no scoping flag at all). -/
def buildFastbootCommand (deviceId : Option String) (command : String) : String :=
  match deviceId with
  | some d => "fastboot -s " ++ d ++ " " ++ command
  | none => "fastboot " ++ command

/-- `FastbootManager.executeCommand`: runs the built command through the
process oracle `ex`; a resolved promise yields
`{success: true, output: stdout + stderr, error: undefined}`, a rejected one
yields `{success: false, output: '', error: message}`.  The `try`/`catch` of
the source is the `Except` case split, so the function is total: it never
throws to its caller. -/
def executeCommand (ex : String → Except String (String × String))
    (command : String) (deviceId : Option String) : FastbootCommandResult :=
  match ex (buildFastbootCommand deviceId command) with
  | Except.ok (stdout, stderr) =>
      { success := true, output := stdout ++ stderr, error := none }
  | Except.error m =>
      { success := false, output := "", error := some m }

/-- Command string interpolated by `FastbootManager.flashPartition`:
`flash ${partition} "${imagePath}"`. -/
def flashPartitionCommand (partition imagePath : String) : String :=
  "flash " ++ partition ++ " \"" ++ imagePath ++ "\""

/-- Command string interpolated by `FastbootManager.erasePartition`:
`erase ${partition}`. -/
def erasePartitionCommand (partition : String) : String :=
  "erase " ++ partition

/-- Command string interpolated by `FastbootManager.formatPartition`:
`format:${filesystem} ${partition}`. -/
def formatPartitionCommand (partition filesystem : String) : String :=
  "format:" ++ filesystem ++ " " ++ partition

/-- Command string built by `FastbootManager.rebootDevice`:
`reboot` for mode `system`, otherwise `reboot-${mode}`. -/
def rebootCommand (mode : String) : String :=
  if mode = "system" then "reboot" else "reboot-" ++ mode

/-- Command string built by `FastbootManager.getPartitionInfo`:
`getvar partition-type:${partition}`. -/
def getPartitionInfoCommand (partition : String) : String :=
  "getvar partition-type:" ++ partition

/-- `FastbootManager.flashPartition`: a direct call of `executeCommand` on
the interpolated command string — the source performs no validation of the
partition or path arguments. -/
def flashPartition (ex : String → Except String (String × String))
    (partition imagePath : String) (deviceId : Option String) :
    FastbootCommandResult :=
  executeCommand ex (flashPartitionCommand partition imagePath) deviceId

/-- Characters with a special meaning to a POSIX shell; used to state the
command-injection claim. -/
def shellMetaChars : List Char := [';', '&', '|', '$', '<', '>']

/-- Whether a string contains a shell metacharacter. -/
def containsShellMeta (s : String) : Bool :=
  s.data.any (fun c => shellMetaChars.contains c)

/-- The `flash-partition` branch of the fastboot route `POST` handler: it
rejects a missing or empty partition/path (JavaScript falsiness), rejects an
invalid image per the `validateImage` oracle, and otherwise forwards the raw
values to `flashPartition` unchanged. -/
def flashPartitionRoute (ex : String → Except String (String × String))
    (validImage : String → Bool) (partition imagePath : Option String)
    (deviceId : Option String) : Except String FastbootCommandResult :=
  match partition, imagePath with
  | some p, some i =>
      if p = "" || i = "" then
        Except.error "Partition and image path are required"
      else if validImage i = false then
        Except.error "Invalid or missing image file"
      else
        Except.ok (flashPartition ex p i deviceId)
  | _, _ => Except.error "Partition and image path are required"

/-! ## Bootloader info -/

/-- `BootloaderInfo` record of lib/fastboot.ts. -/
structure BootloaderInfo where
  version : String
  variant : String
  locked : Bool
  secureboot : Bool
  serialNumber : String
  deriving DecidableEq, Repr

/-- `FastbootManager.getBootloaderInfo`: returns `null` when no device is
connected, otherwise reads five bootloader variables and assembles the
record; `locked` is `unlockedVar !== 'yes'` and `secureboot` is
`secureVar === 'yes'`.  The per-variable reads (`this.getVariable(name,
devicePrefix)`) are abstracted as the oracle `gv`; `gv name = none` models an
absent or unreadable variable (the source's `getVariable` already catches
all of its own errors and resolves to `null`).  The source also computes a
`targetDevice` local that it never uses; it is omitted here. -/
def getBootloaderInfo (devices : List String)
    (gv : String → Option String) : Option BootloaderInfo :=
  if devices.isEmpty then
    none
  else
    some {
      version := (gv "version-bootloader").getD "Unknown"
      variant := (gv "variant").getD "Unknown"
      locked := gv "unlocked" != some "yes"
      secureboot := gv "secure" == some "yes"
      serialNumber := (gv "serialno").getD "Unknown" }

/-! ## Version comparison used by the firmware search route -/

/-- Code-point lexicographic comparison of character lists; models
`String.prototype.localeCompare` on the ASCII digit/dot version tokens the
route sorts (for such strings the default collation agrees with code-point
order). -/
def lexCompare : List Char → List Char → Ordering
  | [], [] => Ordering.eq
  | [], _ :: _ => Ordering.lt
  | _ :: _, [] => Ordering.gt
  | x :: xs, y :: ys =>
      if x = y then lexCompare xs ys
      else if x < y then Ordering.lt
      else Ordering.gt

/-- `a.localeCompare(b)` as an `Ordering`. -/
def localeCompare (a b : String) : Ordering :=
  lexCompare a.data b.data

/-- The comparator passed to `sort` by the `search-advanced` action for
`sortBy: 'version'`: `(a, b) => b.version.localeCompare(a.version)`,
restricted to the version strings. -/
def versionSortComparator (a b : String) : Ordering :=
  localeCompare b a

/-- Splits a character list on `.` separators (accumulator holds the current
segment reversed). -/
def splitSegsAux (cur : List Char) : List Char → List (List Char)
  | [] => [cur.reverse]
  | c :: cs =>
      if c = '.' then cur.reverse :: splitSegsAux [] cs
      else splitSegsAux (c :: cur) cs

/-- Dot-separated segments of a version string. -/
def splitSegs (s : String) : List (List Char) :=
  splitSegsAux [] s.data

/-- Numeric value of a digit-only segment. -/
def digitsToNat (l : List Char) : Nat :=
  l.foldl (fun n c => n * 10 + (c.toNat - '0'.toNat)) 0

/-- Whether a version segment is purely numeric and nonempty. -/
def isNumericSeg (l : List Char) : Bool :=
  !l.isEmpty && l.all Char.isDigit

/-- Segment comparison following the spec's words: numeric segments compare
as numbers, all other pairs compare lexically. -/
def compareSeg (a b : List Char) : Ordering :=
  if isNumericSeg a && isNumericSeg b then
    compare (digitsToNat a) (digitsToNat b)
  else lexCompare a b

/-- Segment-by-segment comparison of segment lists, shorter list first on a
common prefix. -/
def segListCompare : List (List Char) → List (List Char) → Ordering
  | [], [] => Ordering.eq
  | [], _ :: _ => Ordering.lt
  | _ :: _, [] => Ordering.gt
  | x :: xs, y :: ys =>
      match compareSeg x y with
      | Ordering.eq => segListCompare xs ys
      | o => o

/-- Modelled from the spec: the structured version comparator the spec
requires ("split into numeric/alphabetic segments and compare
segment-by-segment numerically where both sides are numeric, lexically
otherwise").  No such comparator exists anywhere in the source; this
definition exists only to be compared with the comparator the code uses. -/
def structuredCompareSpec (a b : String) : Ordering :=
  segListCompare (splitSegs a) (splitSegs b)

/-! ## Radio flash route: progress stream and final event -/

/-- Wire shape of one server-sent progress event:
`{stage, progress, message, success?, error?}` with the optional fields as
`Option`. -/
structure ProgressEvent where
  stage : String
  progress : Nat
  message : String
  success : Option Bool
  error : Option String
  deriving DecidableEq, Repr

/-- The single final event the `flash` action appends to the stream.
`Except.ok b` models `flashRadioFirmware` resolving with `b`; the route then
enqueues `{success: b, stage: b ? 'complete' : 'error',
progress: b ? 100 : 0, message: ...}` with no `error` key.  `Except.error m`
models a thrown error, handled by the `catch` branch which enqueues
`{success: false, stage: 'error', progress: 0, message: ..., error: m}`. -/
def finalEvent : Except String Bool → ProgressEvent
  | Except.ok true =>
      { stage := "complete", progress := 100,
        message := "Radio firmware flashed successfully!",
        success := some true, error := none }
  | Except.ok false =>
      { stage := "error", progress := 0,
        message := "Flash operation failed",
        success := some false, error := none }
  | Except.error m =>
      { stage := "error", progress := 0,
        message := "Flash operation failed",
        success := some false, error := some m }

/-- The full event sequence of one flash session as the route emits it: the
progress events forwarded from the `flashRadioFirmware` callback (opaque to
the route) followed by the final event, after which the stream is closed. -/
def sessionStream (callbackEvents : List ProgressEvent)
    (outcome : Except String Bool) : List ProgressEvent :=
  callbackEvents ++ [finalEvent outcome]

/-! ## `getVariable`: two-channel variable parsing -/

/-- Whitespace as matched by the regex class `\s` and by `trim` (restricted
to the four ASCII whitespace characters that can appear in bootloader
output). -/
def isWs (c : Char) : Bool :=
  c = ' ' || c = '\t' || c = '\n' || c = '\r'

/-- Line terminators, which `.` in a JavaScript regex does not match. -/
def isNewline (c : Char) : Bool :=
  c = '\n' || c = '\r'

/-- `String.prototype.trim` on a character list: drop whitespace from both
ends. -/
def trimL (l : List Char) : List Char :=
  ((l.dropWhile isWs).reverse.dropWhile isWs).reverse

/-- Matching `\s*(.+)` against the text following `variable:`, with the
regex engine's greedy backtracking: `\s*` consumes as much whitespace as
possible, then gives characters back one at a time until `.+` can match at
least one non-newline character; the capture is the maximal run of
non-newline characters from that point. -/
def matchAfterColon : List Char → Option (List Char)
  | [] => none
  | c :: rs =>
      if isWs c then
        match matchAfterColon rs with
        | some cap => some cap
        | none =>
            if isNewline c then none
            else some ((c :: rs).takeWhile (fun x => !isNewline x))
      else some ((c :: rs).takeWhile (fun x => !isNewline x))

/-- Leftmost match of the regex `${variable}:\s*(.+)` over a character
list: scan start positions left to right; where the literal `variable:`
prefix matches, try `\s*(.+)` on the remainder, else (or on failure) move
one position right, exactly as the regex engine searches. -/
def matchVar (pat : List Char) : List Char → Option (List Char)
  | [] => none
  | c :: tl =>
      if pat.isPrefixOf (c :: tl) then
        match matchAfterColon ((c :: tl).drop pat.length) with
        | some cap => some cap
        | none => matchVar pat tl
      else matchVar pat tl

/-- Whether `pat` occurs (case-sensitively, as an exact character run)
anywhere in the list — the same left-to-right scan as `matchVar`. -/
def occursPat (pat : List Char) : List Char → Bool
  | [] => pat.isEmpty
  | c :: tl => pat.isPrefixOf (c :: tl) || occursPat pat tl

/-- The part of `FastbootManager.getVariable` operating on the combined
output: `output.match(new RegExp(variable + ':\\s*(.+)'))`, returning the
trimmed first capture group, or `null` when there is no match. -/
def gvCombined (v : String) (output : String) : Option String :=
  (matchVar (v.data ++ [':']) output.data).map (fun cap => String.mk (trimL cap))

/-- `FastbootManager.getVariable`: concatenates the two output channels
(`const output = stdout + stderr` — fastboot often answers on stderr) and
parses the combined text.  The surrounding `try`/`catch` only converts
process failures into `null`; the channel contents are the oracle inputs
here. -/
def getVariable (v stdout stderr : String) : Option String :=
  gvCombined v (stdout ++ stderr)

/-! ## `waitForDevice` polling loop -/

/-- One run of the `waitForDevice` loop, indexed by the poll counter: under
the idealized clock, the `k`-th iteration starts at elapsed time
`1000 * k` (the only thing advancing time is the 1000 ms sleep between
polls).  `present e` tells whether `getConnectedDevices` reports at least
one device at elapsed time `e`; the returned list records the elapsed times
at which the device list was actually queried.  The `while` condition
`Date.now() - startTime < timeout` is the `if` guard; `fuel` bounds the
unrolling and is chosen in `waitForDeviceRun` so that the guard always
fails before the fuel runs out. -/
def waitFrom (present : Nat → Bool) (timeout : Int) :
    Nat → Nat → Bool × List Nat
  | _, 0 => (false, [])
  | k, fuel + 1 =>
      if ((1000 * k : Nat) : Int) < timeout then
        if present (1000 * k) then (true, [1000 * k])
        else
          ((waitFrom present timeout (k + 1) fuel).1,
            1000 * k :: (waitFrom present timeout (k + 1) fuel).2)
      else (false, [])

/-- `FastbootManager.waitForDevice`: result flag and poll trace of the
polling loop started at elapsed time `0`. -/
def waitForDeviceRun (present : Nat → Bool) (timeout : Int) : Bool × List Nat :=
  waitFrom present timeout 0 (timeout.toNat / 1000 + 1)

/-! ## Flash session registry (orchestrator concurrency guard) -/

/-- Modelled from the spec: the stages of a `FlashSession`
(lib/radio-firmware.ts, the orchestrator owning sessions, is not part of
the source snapshot; only its caller, the radio flash route, is).  Terminal
states are `complete` and `failed`. -/
inductive Stage where
  | idle
  | detecting
  | backingUp
  | downloading
  | verifying
  | flashing
  | confirming
  | complete
  | failed
  deriving DecidableEq, Repr

/-- Whether a stage is terminal. -/
def Stage.isTerminal : Stage → Bool
  | Stage.complete => true
  | Stage.failed => true
  | _ => false

/-- Modelled from the spec: a per-device flash session record. -/
structure FlashSession where
  deviceId : String
  stage : Stage
  progressPercent : Nat
  lastError : Option String
  deriving DecidableEq, Repr

/-- Number of active (non-terminal) sessions a registry holds for a device. -/
def activeCount (registry : List FlashSession) (d : String) : Nat :=
  registry.countP (fun s => s.deviceId == d && !s.stage.isTerminal)

/-- The registry invariant the spec states: at most one non-terminal session
per device id. -/
def registryInvariant (registry : List FlashSession) : Prop :=
  ∀ d, activeCount registry d ≤ 1

/-- The fresh session a successful start inserts: `detecting` stage, zero
progress, no error. -/
def newSession (deviceId : String) : FlashSession :=
  { deviceId := deviceId, stage := Stage.detecting,
    progressPercent := 0, lastError := none }

/-- Modelled from the spec: starting a flash for `deviceId` checks the
registry for an existing non-terminal session for the same device and
rejects synchronously with an error (leaving the registry untouched — the
request is neither queued nor merged); otherwise it inserts a fresh session
in the `detecting` stage. -/
def startFlash (registry : List FlashSession) (deviceId : String) :
    Except String (List FlashSession) :=
  if registry.any (fun s => s.deviceId == deviceId && !s.stage.isTerminal) then
    Except.error ("A flash session is already active for device " ++ deviceId)
  else
    Except.ok (newSession deviceId :: registry)

/-! ## Theorems -/

/-- C4: for every command and optional device id, `executeCommand` never
throws (it is a total function into `FastbootCommandResult`); when the
process oracle resolves it returns `success = true`, output equal to the
stdout channel followed by the stderr channel, and no error field; when the
oracle rejects it returns `success = false` with the failure message in the
error field. -/
theorem c4_executeCommand_result_shape
    (ex : String → Except String (String × String))
    (command : String) (deviceId : Option String) :
    (∀ o e, ex (buildFastbootCommand deviceId command) = Except.ok (o, e) →
      executeCommand ex command deviceId =
        { success := true, output := o ++ e, error := none })
    ∧ (∀ m, ex (buildFastbootCommand deviceId command) = Except.error m →
      executeCommand ex command deviceId =
        { success := false, output := "", error := some m }) := by
  constructor
  · intro o e h
    simp [executeCommand, h]
  · intro m h
    simp [executeCommand, h]

/-- Witness for C4 at a concrete oracle, command and device id. -/
theorem c4_executeCommand_result_shape_witness :
    executeCommand (fun _ => Except.ok ("out", "err")) "getvar all" none =
      { success := true, output := "out" ++ "err", error := none }
    ∧ executeCommand (fun _ => Except.error "spawn failed") "getvar all"
        (some "serial1") =
      { success := false, output := "", error := some "spawn failed" } :=
  ⟨(c4_executeCommand_result_shape (fun _ => Except.ok ("out", "err"))
      "getvar all" none).1 "out" "err" rfl,
   (c4_executeCommand_result_shape (fun _ => Except.error "spawn failed")
      "getvar all" (some "serial1")).2 "spawn failed" rfl⟩

/-- C3 counterexample: a partition name containing the shell metacharacter
`;` is not rejected — `flashPartition` interpolates it verbatim into the
executed command string and runs it (the oracle records success), so the
claim that every operation rejects inputs with shell metacharacters is false
at this input. -/
theorem c3_counterexample_no_metachar_rejection :
    containsShellMeta "boot; rm -rf /" = true
    ∧ flashPartitionCommand "boot; rm -rf /" "img.bin" =
        "flash boot; rm -rf / \"img.bin\""
    ∧ containsShellMeta (flashPartitionCommand "boot; rm -rf /" "img.bin") = true
    ∧ (flashPartition (fun _ => Except.ok ("", "")) "boot; rm -rf /" "img.bin"
        none).success = true := by
  refine ⟨by decide, by decide, by decide, rfl⟩

/-- C3 amended: the route layer validates only the presence (non-emptiness)
of the required parameters before any command is built; the partition
operations themselves perform no shell-metacharacter validation and
interpolate the partition, image-path and filesystem values verbatim into
the executed command string. -/
theorem c3_amended_presence_check_only
    (ex : String → Except String (String × String))
    (validImage : String → Bool) (deviceId : Option String)
    (p img fs : String) :
    flashPartitionRoute ex validImage none none deviceId =
      Except.error "Partition and image path are required"
    ∧ flashPartitionRoute ex validImage (some "") (some img) deviceId =
      Except.error "Partition and image path are required"
    ∧ (∃ s t, (flashPartitionCommand p img).data = s ++ p.data ++ t)
    ∧ (∃ s t, (flashPartitionCommand p img).data = s ++ img.data ++ t)
    ∧ (∃ s t, (erasePartitionCommand p).data = s ++ p.data ++ t)
    ∧ (∃ s t, (formatPartitionCommand p fs).data = s ++ p.data ++ t) := by
  refine ⟨rfl, by simp [flashPartitionRoute], ?_, ?_, ?_, ?_⟩
  · exact ⟨"flash ".data, (" \"" ++ img ++ "\"").data,
      by simp [flashPartitionCommand, String.data_append]⟩
  · exact ⟨("flash " ++ p ++ " \"").data, "\"".data,
      by simp [flashPartitionCommand, String.data_append]⟩
  · exact ⟨"erase ".data, [],
      by simp [erasePartitionCommand, String.data_append]⟩
  · exact ⟨("format:" ++ fs ++ " ").data, [],
      by simp [formatPartitionCommand, String.data_append]⟩

/-- C2 counterexample: the comparator actually used for version sorting is
`localeCompare`, under which `"13.2"` compares strictly *greater* than
`"13.10"` — the opposite of what the claim requires — while the structured
comparator described by the spec orders them the other way. -/
theorem c2_counterexample_lexical_not_structured :
    localeCompare "13.2" "13.10" = Ordering.gt
    ∧ structuredCompareSpec "13.2" "13.10" = Ordering.lt
    ∧ versionSortComparator "13.10" "13.2" = Ordering.gt := by
  refine ⟨by decide, by decide, by decide⟩

/-- `lexCompare` answers `eq` exactly on equal lists. -/
theorem lexCompare_eq_iff (a : List Char) :
    ∀ b, lexCompare a b = Ordering.eq ↔ a = b := by
  induction a with
  | nil => intro b; cases b <;> simp [lexCompare]
  | cons x xs ih =>
    intro b
    cases b with
    | nil => simp [lexCompare]
    | cons y ys =>
      by_cases hxy : x = y
      · subst hxy
        simp [lexCompare, ih]
      · rcases lt_trichotomy x y with h | h | h
        · simp [lexCompare, hxy, h]
        · exact absurd h hxy
        · simp [lexCompare, hxy, lt_asymm h]

/-- Swapping the arguments of `lexCompare` swaps the ordering. -/
theorem lexCompare_swap (a : List Char) :
    ∀ b, lexCompare b a = (lexCompare a b).swap := by
  induction a with
  | nil => intro b; cases b <;> simp [lexCompare, Ordering.swap]
  | cons x xs ih =>
    intro b
    cases b with
    | nil => simp [lexCompare, Ordering.swap]
    | cons y ys =>
      by_cases hxy : x = y
      · subst hxy
        simp [lexCompare, ih]
      · have hyx : ¬y = x := fun h => hxy h.symm
        rcases lt_trichotomy x y with h | h | h
        · simp [lexCompare, hxy, hyx, h, lt_asymm h, Ordering.swap]
        · exact absurd h hxy
        · simp [lexCompare, hxy, hyx, h, lt_asymm h, Ordering.swap]

/-- C2 amended: the version comparator used by the `search-advanced` sort is
plain lexical string comparison (`localeCompare`): it is a genuine
comparison (equality exactly on equal strings, swapping the arguments swaps
the ordering), but it does not compare numeric segments as numbers —
`"13.2"` compares strictly greater than `"13.10"`. -/
theorem c2_amended_comparator_is_lexical (a b : String) :
    (localeCompare a b = Ordering.eq ↔ a = b)
    ∧ localeCompare b a = (localeCompare a b).swap
    ∧ localeCompare "13.2" "13.10" = Ordering.gt := by
  refine ⟨?_, lexCompare_swap a.data b.data, by decide⟩
  rw [localeCompare, lexCompare_eq_iff]
  exact ⟨fun h => String.ext h, fun h => by rw [h]⟩

/-- C1 counterexample: a session whose intermediate events last reported
`progress = 50` and whose flash operation resolves with `false` ends with a
final event carrying `progress = 0` (not the last known value `50`) and no
`error` field at all — refuting both the "last known progress percentage"
and the "non-empty error string" parts of the claim at this concrete
session. -/
theorem c1_counterexample_failure_event_shape :
    (sessionStream
        [{ stage := "Flashing", progress := 50,
           message := "Flashing radio firmware...",
           success := none, error := none }]
        (Except.ok false)).getLast? = some (finalEvent (Except.ok false))
    ∧ (finalEvent (Except.ok false)).progress = 0
    ∧ (finalEvent (Except.ok false)).progress ≠ 50
    ∧ (finalEvent (Except.ok false)).error = none := by
  refine ⟨?_, rfl, by decide, rfl⟩
  simp [sessionStream]

/-- C1 amended: the final event of every session carries a terminal
`success` boolean; it carries `progress = 100` exactly on success and
`progress = 0` (not the last known percentage) on every failure; the
`error` field is present (holding the thrown message) only when the flash
operation threw, and absent when it merely resolved with `false`. -/
theorem c1_amended_final_event (callbackEvents : List ProgressEvent)
    (outcome : Except String Bool) :
    (sessionStream callbackEvents outcome).getLast? = some (finalEvent outcome)
    ∧ ((finalEvent outcome).success = some true ↔ outcome = Except.ok true)
    ∧ (outcome = Except.ok true → (finalEvent outcome).progress = 100)
    ∧ (outcome = Except.ok false →
        (finalEvent outcome).progress = 0 ∧ (finalEvent outcome).error = none)
    ∧ (∀ m, outcome = Except.error m →
        (finalEvent outcome).progress = 0
        ∧ (finalEvent outcome).error = some m) := by
  refine ⟨by simp [sessionStream], ?_, ?_, ?_, ?_⟩
  · cases outcome with
    | ok b => cases b <;> simp [finalEvent]
    | error m => simp [finalEvent]
  · intro h; subst h; rfl
  · intro h; subst h; exact ⟨rfl, rfl⟩
  · intro m h; subst h; exact ⟨rfl, rfl⟩

/-- Witness for C1 amended at concrete sessions (one success, one thrown
failure). -/
theorem c1_amended_final_event_witness :
    (finalEvent (Except.ok true)).progress = 100
    ∧ (finalEvent (Except.error "flash failed")).progress = 0
    ∧ (finalEvent (Except.error "flash failed")).error = some "flash failed" :=
  ⟨(c1_amended_final_event [] (Except.ok true)).2.2.1 rfl,
   ((c1_amended_final_event [] (Except.error "flash failed")).2.2.2.2
      "flash failed" rfl).1,
   ((c1_amended_final_event [] (Except.error "flash failed")).2.2.2.2
      "flash failed" rfl).2⟩

/-- C7 counterexample: with two devices attached and no device id supplied,
the transport does not return any ambiguity error — `executeCommand` builds
the unscoped command `fastboot getvar all` (no `-s` flag) and reports
success, and `getBootloaderInfo` proceeds to return a populated info record
rather than an error.  The claim that such calls yield a `DeviceAmbiguous`
error is therefore false at this input. -/
theorem c7_counterexample_no_ambiguity_error :
    buildFastbootCommand none "getvar all" = "fastboot getvar all"
    ∧ (executeCommand (fun _ => Except.ok ("ok", "")) "getvar all" none).success
        = true
    ∧ (executeCommand (fun _ => Except.ok ("ok", "")) "getvar all" none).error
        = none
    ∧ getBootloaderInfo ["serialA", "serialB"] (fun _ => none) =
        some { version := "Unknown", variant := "Unknown", locked := true,
               secureboot := false, serialNumber := "Unknown" } := by
  refine ⟨by decide, rfl, rfl, by decide⟩

/-- C7 amended: when no device id is supplied the transport issues the
command without any device-scoping flag, regardless of how many devices are
attached (the device list is not even consulted when building the command),
and `getBootloaderInfo` proceeds whenever at least one device is attached —
there is no ambiguity-error path. -/
theorem c7_amended_no_device_scoping (command : String)
    (devices : List String) (gv : String → Option String) :
    buildFastbootCommand none command = "fastboot " ++ command
    ∧ (devices ≠ [] → ∃ info, getBootloaderInfo devices gv = some info) := by
  refine ⟨rfl, ?_⟩
  intro h
  rw [getBootloaderInfo, if_neg (by simpa [List.isEmpty_iff] using h)]
  exact ⟨_, rfl⟩

/-- Witness for C7 amended with two concrete attached devices. -/
theorem c7_amended_no_device_scoping_witness :
    buildFastbootCommand none "getvar partition-type:radio" =
      "fastboot " ++ "getvar partition-type:radio"
    ∧ (∃ info, getBootloaderInfo ["serialA", "serialB"] (fun _ => none) =
        some info) :=
  ⟨(c7_amended_no_device_scoping "getvar partition-type:radio"
      ["serialA", "serialB"] (fun _ => none)).1,
   (c7_amended_no_device_scoping "getvar partition-type:radio"
      ["serialA", "serialB"] (fun _ => none)).2 (by decide)⟩

/-- C9: `getBootloaderInfo` reports `locked = true` exactly when the
bootloader's `unlocked` variable is not the exact string `yes`; an absent or
unreadable variable (oracle answer `none`) therefore yields `locked = true`,
and when no device is connected the whole operation returns `none` instead
of failing. -/
theorem c9_locked_fail_safe (devices : List String)
    (gv : String → Option String) :
    (devices = [] → getBootloaderInfo devices gv = none)
    ∧ (devices ≠ [] → ∃ info, getBootloaderInfo devices gv = some info
        ∧ (info.locked = true ↔ gv "unlocked" ≠ some "yes")
        ∧ (gv "unlocked" = none → info.locked = true)) := by
  constructor
  · intro h; subst h; rfl
  · intro h
    rw [getBootloaderInfo, if_neg (by simpa [List.isEmpty_iff] using h)]
    refine ⟨_, rfl, ?_, ?_⟩
    · simp [bne_iff_ne]
    · intro hnone; simp [hnone]

/-- Witness for C9: no device gives `none`; one device with every variable
unreadable gives a `locked = true` record. -/
theorem c9_locked_fail_safe_witness :
    getBootloaderInfo [] (fun _ => none) = none
    ∧ (∃ info, getBootloaderInfo ["serialA"] (fun _ => none) = some info
        ∧ (info.locked = true ↔ (none : Option String) ≠ some "yes")
        ∧ ((none : Option String) = none → info.locked = true)) :=
  ⟨(c9_locked_fail_safe [] (fun _ => none)).1 rfl,
   (c9_locked_fail_safe ["serialA"] (fun _ => none)).2 (by decide)⟩

/-- If the pattern occurs nowhere in the text, the scan finds nothing. -/
theorem matchVar_eq_none (pat : List Char) :
    ∀ l, occursPat pat l = false → matchVar pat l = none := by
  intro l
  induction l with
  | nil => intro _; rfl
  | cons c tl ih =>
    intro h
    rw [occursPat, Bool.or_eq_false_iff] at h
    simp [matchVar, h.1, ih h.2]

/-- The head of `dropWhile p` never satisfies `p`. -/
theorem dropWhileHeadNot (p : Char → Bool) :
    ∀ (l : List Char) (c : Char), (l.dropWhile p).head? = some c → p c = false := by
  intro l
  induction l with
  | nil => intro c h; simp [List.dropWhile] at h
  | cons a tl ih =>
    intro c h
    by_cases hp : p a = true
    · rw [List.dropWhile_cons, if_pos hp] at h
      exact ih c h
    · have hpa : p a = false := by simpa using hp
      rw [List.dropWhile_cons, if_neg (by simp [hpa]), List.head?_cons] at h
      obtain rfl := Option.some.inj h
      exact hpa

/-- `dropWhile` keeps the last element of a list it does not empty. -/
theorem dropWhileGetLast (p : Char → Bool) :
    ∀ l : List Char, l.dropWhile p ≠ [] →
      (l.dropWhile p).getLast? = l.getLast? := by
  intro l
  induction l with
  | nil => intro h; simp [List.dropWhile] at h
  | cons a tl ih =>
    intro h
    by_cases hp : p a = true
    · rw [List.dropWhile_cons, if_pos hp] at h ⊢
      rw [ih h]
      cases tl with
      | nil => simp [List.dropWhile] at h
      | cons b tb => rw [List.getLast?_cons_cons]
    · rw [List.dropWhile_cons, if_neg (by simpa using hp)]

/-- The trimmed list has no trailing whitespace. -/
theorem trimLLastNotWs (l : List Char) (c : Char) :
    (trimL l).getLast? = some c → isWs c = false := by
  intro h
  rw [trimL, List.getLast?_reverse] at h
  exact dropWhileHeadNot isWs _ c h

/-- The trimmed list has no leading whitespace. -/
theorem trimLHeadNotWs (l : List Char) (c : Char) :
    (trimL l).head? = some c → isWs c = false := by
  intro h
  rw [trimL, List.head?_reverse] at h
  have hne : (l.dropWhile isWs).reverse.dropWhile isWs ≠ [] := by
    intro he
    rw [he] at h
    simp at h
  rw [dropWhileGetLast isWs _ hne, List.getLast?_reverse] at h
  exact dropWhileHeadNot isWs _ c h

/-- C5: `getVariable` depends on the two output channels only through their
concatenation (it matches on `stdout + stderr`); whenever the exact
(case-sensitive) pattern `variable:` does not occur in the combined output
it returns `none` (absent, not an error — the return type has no error
case); and any extracted value has whitespace trimmed from both ends. -/
theorem c5_getVariable_parsing (v stdout stderr stdoutB stderrB : String) :
    (stdout ++ stderr = stdoutB ++ stderrB →
      getVariable v stdout stderr = getVariable v stdoutB stderrB)
    ∧ (occursPat (v.data ++ [':']) (stdout ++ stderr).data = false →
      getVariable v stdout stderr = none)
    ∧ (∀ r, getVariable v stdout stderr = some r →
        (∀ c, r.data.head? = some c → isWs c = false)
        ∧ (∀ c, r.data.getLast? = some c → isWs c = false)) := by
  refine ⟨?_, ?_, ?_⟩
  · intro h
    rw [getVariable, getVariable, h]
  · intro h
    rw [getVariable, gvCombined, matchVar_eq_none _ _ h]
    rfl
  · intro r h
    rw [getVariable, gvCombined] at h
    cases hm : matchVar (v.data ++ [':']) (stdout ++ stderr).data with
    | none => rw [hm] at h; simp at h
    | some cap =>
      rw [hm] at h
      have hr : r = String.mk (trimL cap) := by
        simp only [Option.map_some'] at h
        exact (Option.some.inj h).symm
      subst hr
      exact ⟨fun c hc => trimLHeadNotWs cap c hc,
             fun c hc => trimLLastNotWs cap c hc⟩

/-- Witness for C5: channel-merge at a concrete pair, case-sensitivity
(`UNLOCKED: yes` does not match variable `unlocked`), and trimming of a
value parsed out of interleaved output. -/
theorem c5_getVariable_parsing_witness :
    getVariable "unlocked" "" "x" = getVariable "unlocked" "x" ""
    ∧ getVariable "unlocked" "" "UNLOCKED: yes" = none
    ∧ isWs 'y' = false ∧ isWs 's' = false := by
  refine ⟨(c5_getVariable_parsing "unlocked" "" "x" "x" "").1 (by decide),
          (c5_getVariable_parsing "unlocked" "" "UNLOCKED: yes" "" "").2.1
            (by decide), ?_, ?_⟩
  · exact ((c5_getVariable_parsing "unlocked" "foo " "unlocked: yes  " ""
      "").2.2 "yes" (by decide)).1 'y' (by decide)
  · exact ((c5_getVariable_parsing "unlocked" "foo " "unlocked: yes  " ""
      "").2.2 "yes" (by decide)).2 's' (by decide)

/-- Prepending the slot `1000 * a` to the slots `a + 1, ..., a + n` gives
the slots `a, ..., a + n`. -/
theorem rangeMapShift (a n : Nat) :
    1000 * a :: (List.range n).map (fun i => 1000 * (a + 1 + i)) =
      (List.range (n + 1)).map (fun i => 1000 * (a + i)) := by
  have hfg : (fun i => 1000 * (a + 1 + i)) =
      ((fun i => 1000 * (a + i)) ∘ Nat.succ) := by
    funext i
    simp only [Function.comp_apply, Nat.succ_eq_add_one]
    ring
  rw [List.range_succ_eq_map, List.map_cons, List.map_map, ← hfg]
  simp

/-- Full characterization of the polling loop from an arbitrary poll index,
provided the fuel outlasts the timeout: the polls happen at consecutive
1-second slots, each strictly before the timeout; the loop answers `true`
exactly when some performed poll observed a device; all polls but the last
observed none; and it answers `false` exactly when no poll slot before the
timeout has a device. -/
theorem waitFrom_spec (present : Nat → Bool) (timeout : Int) :
    ∀ (fuel j : Nat), timeout ≤ 1000 * (j : Int) + 1000 * (fuel : Int) →
      (∃ n, (waitFrom present timeout j fuel).2 =
          (List.range n).map (fun i => 1000 * (j + i)))
      ∧ (∀ t ∈ (waitFrom present timeout j fuel).2, (t : Int) < timeout)
      ∧ ((waitFrom present timeout j fuel).1 = true ↔
          ∃ t ∈ (waitFrom present timeout j fuel).2, present t = true)
      ∧ (∀ t ∈ (waitFrom present timeout j fuel).2.dropLast, present t = false)
      ∧ ((waitFrom present timeout j fuel).1 = false ↔
          ∀ k : Nat, ((1000 * (j + k) : Nat) : Int) < timeout →
            present (1000 * (j + k)) = false) := by
  intro fuel
  induction fuel with
  | zero =>
    intro j hfuel
    refine ⟨⟨0, by simp [waitFrom]⟩, by simp [waitFrom], by simp [waitFrom],
            by simp [waitFrom], ?_⟩
    simp only [waitFrom]
    constructor
    · intro _ k hk
      exfalso
      push_cast at hk hfuel
      omega
    · intro _
      trivial
  | succ fuel ih =>
    intro j hfuel
    by_cases hcond : ((1000 * j : Nat) : Int) < timeout
    · by_cases hpres : present (1000 * j) = true
      · have hunfold : waitFrom present timeout j (fuel + 1) =
            (true, [1000 * j]) := by
          rw [waitFrom, if_pos hcond, if_pos hpres]
        rw [hunfold]
        refine ⟨⟨1, by simp [List.range_succ]⟩, ?_, ?_, by simp, ?_⟩
        · intro t ht
          rw [List.mem_singleton] at ht
          subst ht
          exact hcond
        · simp only [true_iff]
          exact ⟨1000 * j, List.mem_singleton_self _, hpres⟩
        · constructor
          · intro h
            cases h
          · intro hall
            exfalso
            have h0 := hall 0 (by simpa using hcond)
            rw [Nat.add_zero] at h0
            rw [hpres] at h0
            cases h0
      · have hpres' : present (1000 * j) = false := by simpa using hpres
        have hfuel' : timeout ≤ 1000 * ((j + 1 : Nat) : Int)
            + 1000 * ((fuel : Nat) : Int) := by
          push_cast at hfuel ⊢
          omega
        obtain ⟨⟨n, hn⟩, h2, h3, h4, h5⟩ := ih (j + 1) hfuel'
        have hunfold : waitFrom present timeout j (fuel + 1) =
            ((waitFrom present timeout (j + 1) fuel).1,
              1000 * j :: (waitFrom present timeout (j + 1) fuel).2) := by
          rw [waitFrom, if_pos hcond, if_neg hpres]
        rw [hunfold]
        refine ⟨?_, ?_, ?_, ?_, ?_⟩
        · refine ⟨n + 1, ?_⟩
          show 1000 * j :: (waitFrom present timeout (j + 1) fuel).2 =
            (List.range (n + 1)).map (fun i => 1000 * (j + i))
          rw [hn]
          exact rangeMapShift j n
        · intro t ht
          rcases List.mem_cons.mp ht with rfl | ht'
          · exact hcond
          · exact h2 t ht'
        · constructor
          · intro h
            obtain ⟨t, ht, hp⟩ := h3.mp h
            exact ⟨t, List.mem_cons_of_mem _ ht, hp⟩
          · rintro ⟨t, ht, hp⟩
            rcases List.mem_cons.mp ht with rfl | ht'
            · rw [hpres'] at hp
              cases hp
            · exact h3.mpr ⟨t, ht', hp⟩
        · intro t ht
          cases hl : (waitFrom present timeout (j + 1) fuel).2 with
          | nil =>
            rw [show ((waitFrom present timeout (j + 1) fuel).1,
                1000 * j :: (waitFrom present timeout (j + 1) fuel).2).2.dropLast
                = (1000 * j :: (waitFrom present timeout (j + 1) fuel).2).dropLast
                from rfl, hl] at ht
            simp [List.dropLast] at ht
          | cons b tb =>
            rw [show ((waitFrom present timeout (j + 1) fuel).1,
                1000 * j :: (waitFrom present timeout (j + 1) fuel).2).2.dropLast
                = (1000 * j :: (waitFrom present timeout (j + 1) fuel).2).dropLast
                from rfl, hl] at ht
            simp only [List.dropLast] at ht
            rcases List.mem_cons.mp ht with rfl | ht'
            · exact hpres'
            · refine h4 t ?_
              rw [hl]
              simpa [List.dropLast] using ht'
        · show (waitFrom present timeout (j + 1) fuel).1 = false ↔ _
          rw [h5]
          constructor
          · intro hall k hk
            cases k with
            | zero =>
              rw [Nat.add_zero]
              exact hpres'
            | succ m =>
              have e : j + 1 + m = j + (m + 1) := by omega
              rw [← e]
              exact hall m (by rw [e]; exact hk)
          · intro hall k hk
            have e : j + 1 + k = j + (k + 1) := by omega
            rw [e]
            exact hall (k + 1) (by rw [← e]; exact hk)
    · have hunfold : waitFrom present timeout j (fuel + 1) = (false, []) := by
        rw [waitFrom, if_neg hcond]
      rw [hunfold]
      refine ⟨⟨0, by simp⟩, by simp, by simp, by simp, ?_⟩
      constructor
      · intro _ k hk
        exfalso
        push_cast at hk hcond
        omega
      · intro _
        rfl

/-- C6: `waitForDevice` polls the device list at the fixed 1-second slots
`0, 1000, 2000, ...` (never faster — the trace is an initial run of exact
1000 ms multiples); every poll happens strictly before the timeout elapses;
the loop returns `true` exactly when some performed poll observed a device,
and all polls before the returning one observed none (it returns at the
first observing poll); it returns `false` exactly when no poll slot before
the timeout has a device, i.e. once the timeout has elapsed with no device
seen. -/
theorem c6_waitForDevice_polling (present : Nat → Bool) (timeout : Int) :
    (∃ n, (waitForDeviceRun present timeout).2 =
        (List.range n).map (fun i => 1000 * i))
    ∧ (∀ t ∈ (waitForDeviceRun present timeout).2, (t : Int) < timeout)
    ∧ ((waitForDeviceRun present timeout).1 = true ↔
        ∃ t ∈ (waitForDeviceRun present timeout).2, present t = true)
    ∧ (∀ t ∈ (waitForDeviceRun present timeout).2.dropLast, present t = false)
    ∧ ((waitForDeviceRun present timeout).1 = false ↔
        ∀ k : Nat, ((1000 * k : Nat) : Int) < timeout →
          present (1000 * k) = false) := by
  have hfuel : timeout ≤ 1000 * ((0 : Nat) : Int)
      + 1000 * ((timeout.toNat / 1000 + 1 : Nat) : Int) := by
    push_cast
    omega
  obtain ⟨⟨n, hn⟩, h2, h3, h4, h5⟩ :=
    waitFrom_spec present timeout (timeout.toNat / 1000 + 1) 0 hfuel
  have hz : (fun i => 1000 * (0 + i)) = (fun i : Nat => 1000 * i) := by
    funext i
    simp
  refine ⟨⟨n, ?_⟩, h2, h3, h4, ?_⟩
  · rw [waitForDeviceRun, hn, hz]
  · rw [waitForDeviceRun]
    simpa using h5

/-- Witness for C6: with a device first visible at elapsed time 2000 ms and
a 5000 ms timeout, the loop reports `true`, and the slot 0 poll it performed
was strictly before the timeout. -/
theorem c6_waitForDevice_polling_witness :
    (waitForDeviceRun (fun t => decide (2000 ≤ t)) 5000).1 = true
    ∧ (((0 : Nat) : Int) < 5000) :=
  ⟨(c6_waitForDevice_polling (fun t => decide (2000 ≤ t)) 5000).2.2.1.mpr
      ⟨2000, by decide, by decide⟩,
   (c6_waitForDevice_polling (fun t => decide (2000 ≤ t)) 5000).2.1 0
      (by decide)⟩

/-- C10: a timeout that is zero or negative makes the `while` guard
`Date.now() - startTime < timeout` false at the very first check, so
`waitForDevice` returns `false` with an empty poll trace — the device list
is never queried, and an attached device is not observed. -/
theorem c10_nonpositive_timeout_never_polls (present : Nat → Bool)
    (timeout : Int) (h : timeout ≤ 0) :
    waitForDeviceRun present timeout = (false, []) := by
  have ht : timeout.toNat = 0 := Int.toNat_of_nonpos h
  have hc : ¬ ((1000 * 0 : Nat) : Int) < timeout := by
    push_cast
    omega
  rw [waitForDeviceRun, ht]
  rw [show (0 : Nat) / 1000 + 1 = 0 + 1 from rfl, waitFrom, if_neg hc]

/-- Witness for C10: a device is attached at every instant
(`present = fun _ => true`) yet a `-1` timeout yields `false` with no polls
at all. -/
theorem c10_nonpositive_timeout_never_polls_witness :
    waitForDeviceRun (fun _ => true) (-1) = (false, [])
    ∧ ((-1 : Int) ≤ 0) :=
  ⟨c10_nonpositive_timeout_never_polls (fun _ => true) (-1) (by decide),
   by decide⟩

/-- C8: starting a flash preserves the at-most-one-active-session-per-device
invariant, and a start request for a device that already has an active
(non-terminal) session is rejected synchronously with a non-empty error —
the rejection produces no new registry, so the existing session is not
mutated and nothing is queued or merged. -/
theorem c8_single_active_session (registry : List FlashSession) (d : String) :
    (registryInvariant registry → ∀ registryB,
      startFlash registry d = Except.ok registryB → registryInvariant registryB)
    ∧ ((∃ s ∈ registry, s.deviceId = d ∧ s.stage.isTerminal = false) →
      ∃ msg, startFlash registry d = Except.error msg ∧ msg ≠ "") := by
  constructor
  · intro hinv registryB hok
    rw [startFlash] at hok
    by_cases hany : registry.any
        (fun s => s.deviceId == d && !s.stage.isTerminal) = true
    · rw [if_pos hany] at hok
      cases hok
    · rw [if_neg hany] at hok
      obtain rfl := Except.ok.inj hok
      intro dB
      rw [activeCount]
      simp only [List.countP_cons]
      by_cases hdd : dB = d
      · subst hdd
        have hzero : List.countP
            (fun s => s.deviceId == dB && !s.stage.isTerminal) registry = 0 := by
          rw [List.countP_eq_zero]
          intro s hs hsd
          exact hany (List.any_eq_true.mpr ⟨s, hs, hsd⟩)
        rw [hzero]
        simp [newSession, Stage.isTerminal]
      · have hne : d ≠ dB := fun h => hdd h.symm
        have hcondB : ((newSession d).deviceId == dB
            && !(newSession d).stage.isTerminal) = false := by
          simp [newSession, Stage.isTerminal, hne]
        rw [hcondB]
        have hB := hinv dB
        rw [activeCount] at hB
        simpa using hB
  · intro hexists
    refine ⟨"A flash session is already active for device " ++ d, ?_, ?_⟩
    · rw [startFlash, if_pos]
      rw [List.any_eq_true]
      obtain ⟨s, hs, hsd, hst⟩ := hexists
      exact ⟨s, hs, by simp [hsd, hst]⟩
    · intro habs
      have hlen := congrArg String.length habs
      rw [String.length_append] at hlen
      have hp : 0 < ("A flash session is already active for device ").length := by
        decide
      rw [show ("" : String).length = 0 from rfl] at hlen
      omega

/-- Witness for C8: a one-session registry satisfies the invariant, and a
second start for the same device is rejected with a non-empty message. -/
theorem c8_single_active_session_witness :
    activeCount [newSession "dev1"] "dev1" ≤ 1
    ∧ ∃ msg, startFlash [newSession "dev1"] "dev1" = Except.error msg
        ∧ msg ≠ "" :=
  ⟨(c8_single_active_session [] "dev1").1
      (fun dA => by simp [activeCount]) [newSession "dev1"] rfl "dev1",
   (c8_single_active_session [newSession "dev1"] "dev1").2
      ⟨newSession "dev1", by decide, by decide, by decide⟩⟩
